import Mathlib

/-!
Verification of the wxorca agent-orchestration core against its
natural-language specification.

The development shallowly embeds the Rust sources of
`crates/wxorca-agents` (state.rs, agents/mod.rs, agents/admin_setup.rs,
agents/usage_assistant.rs, tools/*.rs, bin/cli.rs).  Machine integers are
modelled as `Nat`/`Int`, `Uuid::new_v4()` and `Utc::now()` are environment
inputs threaded as explicit parameters, and `serde_json::Value` is an
inductive `Json` type.  The graph runtime library (`oxidizedgraph`:
`AgentState`, `GraphRunner`, `ToolRegistry`) is not among the sources;
those parts are modelled from the specification and are marked
`Modelled from the spec:` in their doc comments.
-/

namespace Wxorca

/-- Model of `serde_json::Value`.  Numbers are modelled as integers; the
program only manipulates integer-valued JSON numbers at the places the
claims touch (limits, timeouts). -/
inductive Json where
  | null : Json
  | bool (b : Bool) : Json
  | num (n : Int) : Json
  | str (s : String) : Json
  | arr (xs : List Json) : Json
  | obj (fields : List (String × Json)) : Json
deriving Repr

/-- Field lookup in a JSON object field list (first match), the behaviour
of `serde_json::Value::get` on the underlying map. -/
def jFields (fs : List (String × Json)) (k : String) : Option Json :=
  (fs.find? (fun p => p.1 == k)).map (fun p => p.2)

/-- Model of `serde_json::Value::get(key)`: `Some` only on objects that
contain the key, `None` otherwise. -/
def jget (j : Json) (k : String) : Option Json :=
  match j with
  | Json.obj fs => jFields fs k
  | _ => none

/-- Model of `serde_json::Value::as_str`. -/
def jAsStr (j : Json) : Option String :=
  match j with
  | Json.str s => some s
  | _ => none

/-- Model of `serde_json::Value::as_i64` (the program holds no float at
the inspected fields). -/
def jAsInt (j : Json) : Option Int :=
  match j with
  | Json.num n => some n
  | _ => none

/-- Rust `str::contains(pattern)` for string patterns: `splitOn` yields
more than one piece exactly when the pattern occurs.  (Never applied to
an empty pattern in this development.) -/
def strContains (hay pat : String) : Bool :=
  (hay.splitOn pat).length != 1

/-- Insertion into a string-keyed JSON map, replacing an existing entry
(the behaviour of `serde_json::Map::insert` on the key). -/
def mapInsert (k : String) (v : Json) : List (String × Json) → List (String × Json)
  | [] => [(k, v)]
  | (k', v') :: rest => if k' == k then (k, v) :: rest else (k', v') :: mapInsert k v rest

/-- `AgentType` from state.rs. -/
inductive AgentType where
  | adminSetup : AgentType
  | usageAssistant : AgentType
  | troubleshoot : AgentType
  | bestPractices : AgentType
  | docsHelper : AgentType
deriving Repr, DecidableEq

/-- `MessageRole` from state.rs. -/
inductive MessageRole where
  | system : MessageRole
  | user : MessageRole
  | assistant : MessageRole
  | tool : MessageRole
deriving Repr, DecidableEq

/-- `Message` from state.rs.  `Uuid` ids and `DateTime<Utc>` timestamps
are opaque values produced by the environment; both are modelled as `Nat`
and supplied as parameters at each construction site. -/
structure Message where
  id : Nat
  role : MessageRole
  content : String
  timestamp : Nat
  tool_call_id : Option String
  tool_name : Option String
deriving Repr, DecidableEq

/-- `Message::user`; `msgId` models `Uuid::new_v4()`, `now` models
`Utc::now()`. -/
def Message.user (msgId now : Nat) (content : String) : Message :=
  ⟨msgId, MessageRole.user, content, now, none, none⟩

/-- `Message::assistant`. -/
def Message.assistant (msgId now : Nat) (content : String) : Message :=
  ⟨msgId, MessageRole.assistant, content, now, none, none⟩

/-- `Message::system`. -/
def Message.mkSystem (msgId now : Nat) (content : String) : Message :=
  ⟨msgId, MessageRole.system, content, now, none, none⟩

/-- `Message::tool_result`. -/
def Message.tool_result (msgId now : Nat) (tool_call_id content : String) : Message :=
  ⟨msgId, MessageRole.tool, content, now, some tool_call_id, none⟩

/-- `DocReference` from state.rs; the `f32` relevance score is modelled
as a rational (no claim concerns floating-point behaviour). -/
structure DocReference where
  title : String
  url : String
  relevance : Rat
  excerpt : Option String
deriving Repr, DecidableEq

/-- `WxoContext` from state.rs. -/
structure WxoContext where
  user_role : Option String
  current_topic : Option String
  relevant_docs : List DocReference
  wxo_version : Option String
  deployment_type : Option String
  metadata : List (String × Json)
deriving Repr

/-- `WxoContext::default()`. -/
def WxoContext.empty : WxoContext := ⟨none, none, [], none, none, []⟩

/-- `PendingToolCall` from state.rs (also the shape of the runtime
`ToolCall` the nodes push). -/
structure PendingToolCall where
  id : String
  name : String
  arguments : Json
deriving Repr

/-- `WxorcaState` from state.rs. -/
structure WxorcaState where
  session_id : String
  agent_type : AgentType
  messages : List Message
  context : WxoContext
  iteration : Nat
  is_complete : Bool
  pending_tool_calls : List PendingToolCall
  created_at : Nat
  updated_at : Nat
deriving Repr

namespace WxorcaState

/-- `WxorcaState::new`; `sid` models the generated `Uuid::new_v4()`
session id, `now` models `Utc::now()`. -/
def new (agent_type : AgentType) (sid : String) (now : Nat) : WxorcaState :=
  { session_id := sid
    agent_type := agent_type
    messages := []
    context := WxoContext.empty
    iteration := 0
    is_complete := false
    pending_tool_calls := []
    created_at := now
    updated_at := now }

/-- `WxorcaState::with_session_id`. -/
def with_session_id (agent_type : AgentType) (session_id : String) (sid0 : String)
    (now : Nat) : WxorcaState :=
  { new agent_type sid0 now with session_id := session_id }

/-- `WxorcaState::add_user_message`. -/
def add_user_message (now msgId : Nat) (content : String) (s : WxorcaState) : WxorcaState :=
  { s with messages := s.messages ++ [Message.user msgId now content], updated_at := now }

/-- `WxorcaState::add_assistant_message`. -/
def add_assistant_message (now msgId : Nat) (content : String) (s : WxorcaState) : WxorcaState :=
  { s with messages := s.messages ++ [Message.assistant msgId now content], updated_at := now }

/-- `WxorcaState::add_tool_result`. -/
def add_tool_result (now msgId : Nat) (tool_call_id result : String)
    (s : WxorcaState) : WxorcaState :=
  { s with messages := s.messages ++ [Message.tool_result msgId now tool_call_id result]
           updated_at := now }

/-- `WxorcaState::last_user_message` (reverse scan). -/
def last_user_message (s : WxorcaState) : Option Message :=
  s.messages.reverse.find? (fun m => m.role == MessageRole.user)

/-- `WxorcaState::last_assistant_message` (reverse scan). -/
def last_assistant_message (s : WxorcaState) : Option Message :=
  s.messages.reverse.find? (fun m => m.role == MessageRole.assistant)

/-- `WxorcaState::has_pending_tool_calls`. -/
def has_pending_tool_calls (s : WxorcaState) : Bool :=
  !s.pending_tool_calls.isEmpty

/-- `WxorcaState::clear_tool_calls`. -/
def clear_tool_calls (now : Nat) (s : WxorcaState) : WxorcaState :=
  { s with pending_tool_calls := [], updated_at := now }

/-- `WxorcaState::add_tool_call`. -/
def add_tool_call (now : Nat) (id name : String) (arguments : Json)
    (s : WxorcaState) : WxorcaState :=
  { s with pending_tool_calls := s.pending_tool_calls ++ [⟨id, name, arguments⟩]
           updated_at := now }

/-- `WxorcaState::mark_complete`. -/
def mark_complete (now : Nat) (s : WxorcaState) : WxorcaState :=
  { s with is_complete := true, updated_at := now }

/-- `WxorcaState::increment_iteration`. -/
def increment_iteration (now : Nat) (s : WxorcaState) : WxorcaState :=
  { s with iteration := s.iteration + 1, updated_at := now }

/-- `WxorcaState::set_metadata`. -/
def set_metadata (now : Nat) (key : String) (value : Json) (s : WxorcaState) : WxorcaState :=
  { s with context := { s.context with metadata := mapInsert key value s.context.metadata }
           updated_at := now }

/-- `WxorcaState::get_metadata`. -/
def get_metadata (s : WxorcaState) (key : String) : Option Json :=
  jFields s.context.metadata key

end WxorcaState

/-- Node control signal.  The sources return
`Result<NodeOutput, NodeError>` with `NodeOutput ∈ {cont, Finish}`; the
specification folds both into `Signal ∈ {Continue, Finish, Error}`
(§4.3), which is the shape used here. -/
inductive Signal where
  | cont : Signal
  | finish : Signal
  | err (msg : String) : Signal
deriving Repr, DecidableEq

/-- Modelled from the spec: the runtime conversation-state handle
(`AgentState` of the `oxidizedgraph` library, which is not among the
sources; only its callers are).  Per §3 of the specification it carries
the message sequence, the open string-keyed JSON context used for
inter-node communication, the pending tool-call queue (`tool_calls` in
the callers), and the completion flag.  The identity and bookkeeping
fields (`session_id`, `agent_type`, timestamps) live on `WxorcaState`
above and are not read by any node. -/
structure AgentState where
  messages : List Message
  context : List (String × Json)
  tool_calls : List PendingToolCall
  is_complete : Bool
deriving Repr

namespace AgentState

/-- Modelled from the spec: context read (`get_context`); absence
resolves to `none`, never an error (§3). -/
def get_context (s : AgentState) (key : String) : Option Json :=
  jFields s.context key

/-- Modelled from the spec: the typed decode `get_context::<String>` —
absence and type mismatch both yield `none` (§3, §9). -/
def getStr (s : AgentState) (key : String) : Option String :=
  (s.get_context key).bind jAsStr

/-- Modelled from the spec: context write (`set_context`). -/
def set_context (s : AgentState) (key : String) (v : Json) : AgentState :=
  { s with context := mapInsert key v s.context }

/-- Modelled from the spec: append an assistant message
(`add_assistant_message`), mirroring `WxorcaState::add_assistant_message`. -/
def add_assistant_message (now msgId : Nat) (content : String) (s : AgentState) : AgentState :=
  { s with messages := s.messages ++ [Message.assistant msgId now content] }

/-- Modelled from the spec: append a tool-result message keyed by the
originating call id (`add_tool_result`), mirroring
`WxorcaState::add_tool_result`. -/
def add_tool_result (now msgId : Nat) (tool_call_id result : String)
    (s : AgentState) : AgentState :=
  { s with messages := s.messages ++ [Message.tool_result msgId now tool_call_id result] }

/-- Modelled from the spec: drain the pending tool-call queue
(`clear_tool_calls`), mirroring `WxorcaState::clear_tool_calls`. -/
def clear_tool_calls (s : AgentState) : AgentState :=
  { s with tool_calls := [] }

/-- Modelled from the spec: the one-way completion transition
(`mark_complete`), mirroring `WxorcaState::mark_complete`. -/
def mark_complete (s : AgentState) : AgentState :=
  { s with is_complete := true }

/-- Modelled from the spec: `has_pending_tool_calls`, mirroring
`WxorcaState::has_pending_tool_calls`. -/
def has_pending_tool_calls (s : AgentState) : Bool :=
  !s.tool_calls.isEmpty

/-- Modelled from the spec: `last_user_message` (most-recent-first scan,
§3), mirroring `WxorcaState::last_user_message`. -/
def last_user_message (s : AgentState) : Option Message :=
  s.messages.reverse.find? (fun m => m.role == MessageRole.user)

end AgentState

/-- `detect_intent` from agents/mod.rs. -/
def detect_intent (query : String) : String :=
  let q := query.toLower
  if strContains q "how do i" || strContains q "how to" || strContains q "show me" then
    "howto"
  else if strContains q "error" || strContains q "failed" || strContains q "not working"
      || strContains q "problem" then
    "troubleshoot"
  else if strContains q "documentation" || strContains q "docs"
      || strContains q "where can i find" then
    "search"
  else if strContains q "example" || strContains q "sample"
      || strContains q "show me code" then
    "example"
  else if strContains q "validate" || strContains q "check"
      || strContains q "is this correct" then
    "validate"
  else if strContains q "best practice" || strContains q "recommend"
      || strContains q "should i" then
    "advice"
  else
    "general"

/-- `AnalyzeQueryNode::execute` from agents/mod.rs.  The `Err` branches
of the source are lock-poisoning failures, outside this sequential
single-run model (spec §5). -/
def analyzeQueryRun (s : AgentState) : AgentState × Signal :=
  match s.last_user_message with
  | none => (s, Signal.cont)
  | some m =>
    let content := m.content
    let intent := detect_intent content
    let s := s.set_context "user_intent" (Json.str intent)
    let s := s.set_context "original_query" (Json.str content)
    let needs_tools := intent == "search" || intent == "validate" || intent == "example"
    let s := s.set_context "needs_tools" (Json.bool needs_tools)
    (s, Signal.cont)

/-- `AdminSearchNode::execute` from agents/admin_setup.rs.  `callId`
models the `Uuid::new_v4()` call id. -/
def adminSearchRun (callId : String) (s : AgentState) : AgentState × Signal :=
  let query := (s.getStr "original_query").getD ""
  if query = "" then (s, Signal.cont)
  else
    let call : PendingToolCall :=
      ⟨callId, "search_wxo_docs",
        Json.obj [("query", Json.str query), ("category", Json.str "admin"),
                  ("limit", Json.num 5)]⟩
    ({ s with tool_calls := s.tool_calls ++ [call] }, Signal.cont)

/-- `UsageSearchNode::execute` from agents/usage_assistant.rs. -/
def usageSearchRun (callId : String) (s : AgentState) : AgentState × Signal :=
  let query := (s.getStr "original_query").getD ""
  if query = "" then (s, Signal.cont)
  else
    let call : PendingToolCall :=
      ⟨callId, "search_wxo_docs",
        Json.obj [("query", Json.str query), ("category", Json.str "user"),
                  ("limit", Json.num 5)]⟩
    ({ s with tool_calls := s.tool_calls ++ [call] }, Signal.cont)

/-- `ExampleFetchNode::execute` from agents/usage_assistant.rs. -/
def exampleFetchRun (callId : String) (s : AgentState) : AgentState × Signal :=
  let query := (s.getStr "original_query").getD ""
  if query = "" then (s, Signal.cont)
  else
    let call : PendingToolCall :=
      ⟨callId, "fetch_wxo_examples",
        Json.obj [("topic", Json.str query), ("limit", Json.num 3)]⟩
    ({ s with tool_calls := s.tool_calls ++ [call] }, Signal.cont)

/-- `generate_admin_response` from agents/admin_setup.rs. -/
def generate_admin_response (query : String) (tool_results : List String)
    (_system_prompt : String) : String :=
  let query_lower := query.toLower
  let has_docs := !tool_results.isEmpty
  let response :=
    if strContains query_lower "setup" || strContains query_lower "install" then
      "## WatsonX Orchestrate Setup Guide\n\n"
        ++ "Here\x27s how to set up WatsonX Orchestrate:\n\n"
        ++ "1. **Access the Admin Console**: Navigate to your WXO instance and log in with admin credentials.\n\n"
        ++ "2. **Configure Identity Provider**: Set up SSO or local authentication under Settings > Security.\n\n"
        ++ "3. **Create User Groups**: Define roles and permissions in Settings > Users & Teams.\n\n"
        ++ "4. **Set Up Integrations**: Connect external services in Settings > Integrations.\n\n"
    else if strContains query_lower "user" || strContains query_lower "permission" then
      "## User Management\n\n"
        ++ "To manage users in WatsonX Orchestrate:\n\n"
        ++ "1. Go to **Settings > Users & Teams**\n"
        ++ "2. Click **Add User** to invite new users\n"
        ++ "3. Assign appropriate roles (Admin, Developer, User)\n"
        ++ "4. Configure team memberships for collaboration\n\n"
        ++ "**Tip**: Use groups to manage permissions at scale.\n"
    else if strContains query_lower "security" || strContains query_lower "authentication" then
      "## Security Configuration\n\n"
        ++ "Security best practices for WatsonX Orchestrate:\n\n"
        ++ "- Enable **Multi-Factor Authentication** (MFA) for all admin accounts\n"
        ++ "- Configure **Session Timeouts** appropriately\n"
        ++ "- Set up **Audit Logging** to track changes\n"
        ++ "- Review **API Key** permissions regularly\n"
        ++ "- Use **Least Privilege** principle for user roles\n"
    else if strContains query_lower "integration" then
      "## Integration Setup\n\n"
        ++ "To configure integrations:\n\n"
        ++ "1. Navigate to **Settings > Integrations**\n"
        ++ "2. Select the integration type (Salesforce, ServiceNow, etc.)\n"
        ++ "3. Provide the required credentials\n"
        ++ "4. Configure sync settings and permissions\n"
        ++ "5. Test the connection before enabling\n"
    else
      "I\x27m here to help you with WatsonX Orchestrate administration.\n\n"
        ++ "I can assist with:\n"
        ++ "- Initial setup and configuration\n"
        ++ "- User and team management\n"
        ++ "- Security settings\n"
        ++ "- Integration configuration\n"
        ++ "- API key management\n\n"
        ++ "What would you like help with?"
  if has_docs then
    response ++ "\n\n---\n\n**📚 Related Documentation:**\n"
      ++ "I found some relevant documentation that might help. "
      ++ "Check the search results above for more details."
  else
    response

/-- `AdminResponseNode::execute` from agents/admin_setup.rs: collect the
tool-result contents, synthesize the templated response, append it as an
assistant message, mark the conversation complete, signal `Finish`. -/
def adminRespondRun (now msgId : Nat) (system_prompt : String)
    (s : AgentState) : AgentState × Signal :=
  let query := (s.getStr "original_query").getD ""
  let tool_results := (s.messages.filter (fun m => m.role == MessageRole.tool)).map
    (fun m => m.content)
  let response := generate_admin_response query tool_results system_prompt
  let s := s.add_assistant_message now msgId response
  let s := s.mark_complete
  (s, Signal.finish)

/-- Modelled from the spec: the `END` routing sentinel of the graph
library (`transitions::END`), a designated destination name that
terminates the run (§3, §4.4). -/
def endSentinel : String := "END"

/-- `route_by_tools` from agents/mod.rs: the conditional router used by
every agent graph on its respond node. -/
def route_by_tools (s : AgentState) : String :=
  if s.has_pending_tool_calls then "execute_tools" else endSentinel

/-- Modelled from the spec: a compiled graph (§3) — named nodes, one
entry node, unconditional `from → to` edges, and conditional edges
carrying a routing function `state → destination name`.  Node behaviour
is supplied separately to the runner. -/
structure Graph (σ : Type) where
  nodes : List String
  entry : String
  edges : List (String × String)
  conds : List (String × (σ → String))

/-- Conditional edge registered for a node, if any (first match). -/
def condOf {σ : Type} (g : Graph σ) (node : String) : Option (σ → String) :=
  (g.conds.find? (fun p => p.1 == node)).map (fun p => p.2)

/-- Unconditional edge registered for a node, if any (first match). -/
def edgeOf {σ : Type} (g : Graph σ) (node : String) : Option String :=
  (g.edges.find? (fun p => p.1 == node)).map (fun p => p.2)

/-- The admin-setup agent graph topology from
`AdminSetupAgent::build_graph` (agents/admin_setup.rs):
`analyze → search_docs → respond`, a conditional edge `route_by_tools`
on `respond`, and `execute_tools → respond`. -/
def adminGraph : Graph AgentState :=
  { nodes := ["analyze", "search_docs", "respond", "execute_tools"]
    entry := "analyze"
    edges := [("analyze", "search_docs"), ("search_docs", "respond"),
              ("execute_tools", "respond")]
    conds := [("respond", route_by_tools)] }

/-- Runner error taxonomy (§7): the iteration ceiling produces
`exhausted`, a node-signalled fault produces `nodeError`. -/
inductive RunError where
  | exhausted : RunError
  | nodeError (msg : String) : RunError
deriving Repr, DecidableEq

/-- Terminal outcome of a run (§4.5): `Finished(final_state)` or
`Failed(error)` together with the state reached. -/
inductive RunResult (σ : Type) where
  | finished (s : σ) : RunResult σ
  | failed (e : RunError) (s : σ) : RunResult σ
deriving Repr

/-- Modelled from the spec: the `GraphRunner` transition loop (§4.5),
fuel-bounded by `max_iterations`.  Each recursion step executes one node
and consumes one unit of fuel; exhausting the fuel halts in
`Failed(exhausted)`.  Routing precedence follows §4.4: a conditional
edge, evaluated on the current state, takes precedence (its `END` result
terminates the run); otherwise — only for a `Continue` signal — the
single unconditional edge is followed; a `Finish` signal with no
conditional edge halts in `Finished`.  Returns the outcome together with
the number of node executions performed. -/
def run {σ : Type} (g : Graph σ) (exec : String → σ → σ × Signal) :
    Nat → String → σ → RunResult σ × Nat
  | 0, _, s => (RunResult.failed RunError.exhausted s, 0)
  | fuel + 1, node, s =>
    match exec node s with
    | (s', Signal.err m) => (RunResult.failed (RunError.nodeError m) s', 1)
    | (s', Signal.finish) =>
      match condOf g node with
      | some f =>
        let d := f s'
        if d == endSentinel then (RunResult.finished s', 1)
        else
          let r := run g exec fuel d s'
          (r.1, r.2 + 1)
      | none => (RunResult.finished s', 1)
    | (s', Signal.cont) =>
      match condOf g node with
      | some f =>
        let d := f s'
        if d == endSentinel then (RunResult.finished s', 1)
        else
          let r := run g exec fuel d s'
          (r.1, r.2 + 1)
      | none =>
        match edgeOf g node with
        | some d =>
          let r := run g exec fuel d s'
          (r.1, r.2 + 1)
        | none => (RunResult.finished s', 1)

/-- The pathological self-routing graph of spec §8: one node whose
conditional edge always routes back to itself. -/
def spinGraph : Graph Nat :=
  { nodes := ["spin"], entry := "spin", edges := [],
    conds := [("spin", fun _ => "spin")] }

/-- A node behaviour that always continues, leaving state unchanged. -/
def spinExec : String → Nat → Nat × Signal := fun _ s => (s, Signal.cont)

/-- Model of `serde_json::Value::as_array`. -/
def jAsArr (j : Json) : Option (List Json) :=
  match j with
  | Json.arr xs => some xs
  | _ => none

/-- `SearchDocsInput` from tools/search_docs.rs: `query` required,
`limit` defaulting to 5, `category` optional. -/
structure SearchDocsInput where
  query : String
  limit : Int
  category : Option String
deriving Repr

/-- Deserialization of `SearchDocsInput` (the derived serde
`Deserialize`): the argument must be an object with a string `query`; a
present `limit` must be a non-negative integer (`usize`); a present
`category` must be a string or null.  Exact serde error strings are
abbreviated. -/
def parseSearchDocs (args : Json) : Except String SearchDocsInput :=
  match args with
  | Json.obj fs =>
    match jFields fs "query" with
    | none => Except.error "missing field query"
    | some qv =>
      match jAsStr qv with
      | none => Except.error "invalid type for query"
      | some q =>
        let limP : Except String Int :=
          match jFields fs "limit" with
          | none => Except.ok 5
          | some (Json.num n) =>
            if 0 ≤ n then Except.ok n else Except.error "invalid value for limit"
          | some _ => Except.error "invalid type for limit"
        match limP with
        | Except.error e => Except.error e
        | Except.ok lim =>
          match jFields fs "category" with
          | none => Except.ok ⟨q, lim, none⟩
          | some Json.null => Except.ok ⟨q, lim, none⟩
          | some (Json.str c) => Except.ok ⟨q, lim, some c⟩
          | some _ => Except.error "invalid type for category"
  | _ => Except.error "invalid type: expected an object"

/-- `SearchDocsTool::execute` from tools/search_docs.rs: malformed
arguments become a `ToolError("Invalid arguments: ...")`; otherwise the
documents are retrieved (live SurrealDB query with a mock-corpus
fallback) and serialized.  The retrieval-and-serialize body is
environment-dependent (network I/O) and is abstracted as the `retrieve`
parameter; every claim about this tool concerns only the
argument-validation path. -/
def searchDocsExec (retrieve : SearchDocsInput → String) (args : Json) :
    Except String String :=
  match parseSearchDocs args with
  | Except.error e => Except.error ("Invalid arguments: " ++ e)
  | Except.ok input => Except.ok (retrieve input)

/-- `FetchExamplesInput` from tools/fetch_examples.rs: `topic` required,
`language` optional, `limit` defaulting to 3. -/
structure FetchExamplesInput where
  topic : String
  language : Option String
  limit : Int
deriving Repr

/-- Deserialization of `FetchExamplesInput` (the derived serde
`Deserialize`), analogous to `parseSearchDocs`. -/
def parseFetchExamples (args : Json) : Except String FetchExamplesInput :=
  match args with
  | Json.obj fs =>
    match jFields fs "topic" with
    | none => Except.error "missing field topic"
    | some tv =>
      match jAsStr tv with
      | none => Except.error "invalid type for topic"
      | some t =>
        let langP : Except String (Option String) :=
          match jFields fs "language" with
          | none => Except.ok none
          | some Json.null => Except.ok none
          | some (Json.str l) => Except.ok (some l)
          | some _ => Except.error "invalid type for language"
        match langP with
        | Except.error e => Except.error e
        | Except.ok lang =>
          match jFields fs "limit" with
          | none => Except.ok ⟨t, lang, 3⟩
          | some (Json.num n) =>
            if 0 ≤ n then Except.ok ⟨t, lang, n⟩
            else Except.error "invalid value for limit"
          | some _ => Except.error "invalid type for limit"
  | _ => Except.error "invalid type: expected an object"

/-- `FetchExamplesTool::execute` from tools/fetch_examples.rs: malformed
arguments become `ToolError("Invalid arguments: ...")`; otherwise the
mock example corpus is filtered and serialized.  The corpus (long
literal data) and its serialization are abstracted as the `mock`
parameter; no claim concerns their content. -/
def fetchExamplesExec (mock : FetchExamplesInput → String) (args : Json) :
    Except String String :=
  match parseFetchExamples args with
  | Except.error e => Except.error ("Invalid arguments: " ++ e)
  | Except.ok input => Except.ok (mock input)

/-- `ConfigType` from tools/validate_config.rs. -/
inductive ConfigType where
  | skill : ConfigType
  | workflow : ConfigType
  | integration : ConfigType
  | authentication : ConfigType
deriving Repr, DecidableEq

/-- `ValidationError` from tools/validate_config.rs. -/
structure ValidationError where
  field : String
  message : String
  code : String
deriving Repr, DecidableEq

/-- `ValidationWarning` from tools/validate_config.rs. -/
structure ValidationWarning where
  field : String
  message : String
deriving Repr, DecidableEq

/-- `ValidationResult` from tools/validate_config.rs. -/
structure ValidationResult where
  valid : Bool
  errors : List ValidationError
  warnings : List ValidationWarning
  suggestions : List String
deriving Repr, DecidableEq

/-- `validate_skill_config` from tools/validate_config.rs.  Rust
`String::len` counts UTF-8 bytes, modelled by `utf8ByteSize`. -/
def validate_skill_config (config : Json) : ValidationResult :=
  let missingName : List ValidationError :=
    if (jget config "name").isNone then
      [⟨"name", "Skill name is required", "MISSING_REQUIRED_FIELD"⟩]
    else []
  let descWarn : List ValidationWarning :=
    if (jget config "description").isNone then
      [⟨"description", "Adding a description helps users understand what this skill does"⟩]
    else []
  let schemaWarn : List ValidationWarning :=
    if (jget config "input_schema").isNone then
      [⟨"input_schema", "Defining an input schema improves validation and user experience"⟩]
    else []
  let nameErrs : List ValidationError :=
    match (jget config "name").bind jAsStr with
    | some name =>
      (if strContains name " " then
        [⟨"name", "Skill name should not contain spaces. Use underscores or hyphens.",
          "INVALID_NAME_FORMAT"⟩]
      else [])
      ++ (if name.utf8ByteSize > 64 then
        [⟨"name", "Skill name must be 64 characters or less", "NAME_TOO_LONG"⟩]
      else [])
    | none => []
  let errors := missingName ++ nameErrs
  let warnings := descWarn ++ schemaWarn
  let suggestions :=
    ["Consider adding example inputs to help users understand expected values",
     "Add tags to make the skill easier to find in the catalog"]
  ⟨errors.isEmpty, errors, warnings, suggestions⟩

/-- `validate_workflow_config` from tools/validate_config.rs. -/
def validate_workflow_config (config : Json) : ValidationResult :=
  let missingName : List ValidationError :=
    if (jget config "name").isNone then
      [⟨"name", "Workflow name is required", "MISSING_REQUIRED_FIELD"⟩]
    else []
  let stepErrs : List ValidationError :=
    if (jget config "steps").isNone then
      [⟨"steps", "Workflow must have at least one step", "MISSING_REQUIRED_FIELD"⟩]
    else
      match (jget config "steps").bind jAsArr with
      | some steps =>
        (if steps.isEmpty then
          [⟨"steps", "Workflow must have at least one step", "EMPTY_STEPS"⟩]
        else [])
        ++ steps.enum.filterMap (fun p =>
          if (jget p.2 "skill_id").isNone && (jget p.2 "action").isNone then
            some ⟨"steps[" ++ toString p.1 ++ "]",
                  "Each step must have either a skill_id or action", "INVALID_STEP"⟩
          else none)
      | none => []
  let errHandlingWarn : List ValidationWarning :=
    if (jget config "error_handling").isNone then
      [⟨"error_handling", "Consider adding error handling to make the workflow more robust"⟩]
    else []
  let errors := missingName ++ stepErrs
  let suggestions :=
    ["Add a timeout to prevent workflows from running indefinitely",
     "Consider adding conditional logic for different scenarios"]
  ⟨errors.isEmpty, errors, errHandlingWarn, suggestions⟩

/-- `validate_integration_config` from tools/validate_config.rs. -/
def validate_integration_config (config : Json) : ValidationResult :=
  let missingType : List ValidationError :=
    if (jget config "type").isNone then
      [⟨"type", "Integration type is required", "MISSING_REQUIRED_FIELD"⟩]
    else []
  let missingCreds : List ValidationError :=
    if (jget config "credentials").isNone then
      [⟨"credentials", "Integration credentials are required", "MISSING_REQUIRED_FIELD"⟩]
    else []
  let passwordWarn : List ValidationWarning :=
    match jget config "credentials" with
    | some creds =>
      if (jget creds "password").isSome then
        [⟨"credentials.password", "Consider using API keys or OAuth instead of passwords"⟩]
      else []
    | none => []
  let rateWarn : List ValidationWarning :=
    if (jget config "rate_limit").isNone then
      [⟨"rate_limit", "Setting a rate limit prevents overloading the external service"⟩]
    else []
  let errors := missingType ++ missingCreds
  let suggestions :=
    ["Test the integration in a sandbox environment first",
     "Set up monitoring for integration failures"]
  ⟨errors.isEmpty, errors, passwordWarn ++ rateWarn, suggestions⟩

/-- `validate_auth_config` from tools/validate_config.rs. -/
def validate_auth_config (config : Json) : ValidationResult :=
  let missingMethod : List ValidationError :=
    if (jget config "method").isNone then
      [⟨"method", "Authentication method is required", "MISSING_REQUIRED_FIELD"⟩]
    else []
  let methodWarn : List ValidationWarning :=
    match (jget config "method").bind jAsStr with
    | some method =>
      if method = "basic" then
        [⟨"method", "Basic authentication is less secure. Consider using OAuth or API keys"⟩]
      else if method = "oauth" then
        if (jget config "token_refresh").isNone then
          [⟨"token_refresh", "Configure token refresh to prevent authentication failures"⟩]
        else []
      else []
    | none => []
  let sessionWarn : List ValidationWarning :=
    match jget config "session" with
    | some session =>
      match (jget session "timeout").bind jAsInt with
      | some timeout =>
        if timeout > 86400 then
          [⟨"session.timeout", "Session timeout longer than 24 hours may be a security risk"⟩]
        else []
      | none => []
    | none => []
  let errors := missingMethod
  let suggestions :=
    ["Enable multi-factor authentication for admin accounts",
     "Set up audit logging for authentication events",
     "Regularly rotate API keys and tokens"]
  ⟨errors.isEmpty, errors, methodWarn ++ sessionWarn, suggestions⟩

/-- Deserialization of `ValidateConfigInput` (the derived serde
`Deserialize`): `config_type` must be one of the four snake_case enum
strings, `config` is any JSON value.  Exact serde error strings are
abbreviated. -/
def parseValidateConfig (args : Json) : Except String (ConfigType × Json) :=
  match args with
  | Json.obj fs =>
    match jFields fs "config_type" with
    | none => Except.error "missing field config_type"
    | some ctv =>
      match jAsStr ctv with
      | none => Except.error "invalid type for config_type"
      | some cts =>
        let ct? : Option ConfigType :=
          if cts = "skill" then some ConfigType.skill
          else if cts = "workflow" then some ConfigType.workflow
          else if cts = "integration" then some ConfigType.integration
          else if cts = "authentication" then some ConfigType.authentication
          else none
        match ct? with
        | none => Except.error ("unknown variant " ++ cts)
        | some ct =>
          match jFields fs "config" with
          | none => Except.error "missing field config"
          | some c => Except.ok (ct, c)
  | _ => Except.error "invalid type: expected an object"

/-- The dispatch of `ValidateConfigTool::execute` after argument
parsing: select the validator by config type. -/
def validateConfigResult (ct : ConfigType) (config : Json) : ValidationResult :=
  match ct with
  | ConfigType.skill => validate_skill_config config
  | ConfigType.workflow => validate_workflow_config config
  | ConfigType.integration => validate_integration_config config
  | ConfigType.authentication => validate_auth_config config

/-- `ValidateConfigTool::execute` from tools/validate_config.rs:
malformed arguments become `ToolError("Invalid arguments: ...")`;
otherwise the matching validator runs and its result is serialized.
JSON pretty-printing of the result is abstracted as the `ser`
parameter; the claims concern the `ValidationResult` value itself. -/
def validateConfigExec (ser : ValidationResult → String) (args : Json) :
    Except String String :=
  match parseValidateConfig args with
  | Except.error e => Except.error ("Invalid arguments: " ++ e)
  | Except.ok p => Except.ok (ser (validateConfigResult p.1 p.2))

/-- Modelled from the spec: a registered tool of the `ToolRegistry`
(§6) — a unique name and an asynchronously invoked body
`arguments → Result<string, ToolError>`. -/
structure ToolDef where
  name : String
  exec : Json → Except String String

/-- Modelled from the spec: the tool registry, tools keyed by unique
name (§4.2). -/
def ToolRegistry : Type := List ToolDef

/-- Lookup by `call.name` (§4.2). -/
def lookupTool (reg : ToolRegistry) (name : String) : Option ToolDef :=
  List.find? (fun t => t.name == name) reg

/-- Modelled from the spec: `ToolRegistry::execute` (§4.2, §7) — an
absent name yields a textual error result rather than raising, and a
tool-signalled error is converted into a textual result, so that every
outcome flows back into the conversation as a string. -/
def registryExecute (reg : ToolRegistry) (call : PendingToolCall) : String :=
  match lookupTool reg call.name with
  | none => "Error: tool \x27" ++ call.name ++ "\x27 not found"
  | some t =>
    match t.exec call.arguments with
    | Except.ok out => out
    | Except.error e => "Error: " ++ e

/-- `create_tool_registry` from tools/mod.rs: the three wxorca tools in
registration order, with their environment-dependent bodies supplied as
parameters. -/
def create_tool_registry (retrieve : SearchDocsInput → String)
    (ser : ValidationResult → String) (mock : FetchExamplesInput → String) : ToolRegistry :=
  [⟨"search_wxo_docs", searchDocsExec retrieve⟩,
   ⟨"validate_wxo_config", validateConfigExec ser⟩,
   ⟨"fetch_wxo_examples", fetchExamplesExec mock⟩]

/-- The result-appending loop of `ExecuteToolsNode::execute`
(agents/mod.rs): one `add_tool_result` per pending call, in order,
keyed by the call id.  `now` models `Utc::now()`; the `i`-th appended
message receives the fresh id `idBase + i`. -/
def addToolResults (reg : ToolRegistry) (now : Nat) :
    Nat → List PendingToolCall → AgentState → AgentState
  | _, [], st => st
  | i, c :: rest, st =>
    addToolResults reg now (i + 1) rest
      (st.add_tool_result now i c.id (registryExecute reg c))

/-- The tool-result messages produced by draining a pending-call list,
stated separately so the appended block can be named in theorems. -/
def toolResultMessages (reg : ToolRegistry) (now : Nat) :
    Nat → List PendingToolCall → List Message
  | _, [] => []
  | i, c :: rest =>
    Message.tool_result i now c.id (registryExecute reg c)
      :: toolResultMessages reg now (i + 1) rest

/-- `ExecuteToolsNode::execute` from agents/mod.rs: snapshot the
pending calls, execute each through the registry appending its result,
then clear the pending queue and continue. -/
def executeToolsRun (reg : ToolRegistry) (now idBase : Nat)
    (s : AgentState) : AgentState × Signal :=
  let pending := s.tool_calls
  let s1 := addToolResults reg now idBase pending s
  (s1.clear_tool_calls, Signal.cont)

/-- The empty runtime state: no messages, empty context, no pending
calls, not complete. -/
def emptyAgentState : AgentState := ⟨[], [], [], false⟩

/-- A runtime state holding one user message, as produced by the CLI
entry path for a fresh session. -/
def c3start : AgentState :=
  ⟨[Message.user 0 0 "please setup the instance"], [], [], false⟩

/-- The state in which the respond node is entered on the first pass of
the admin graph: after `analyze` and `search_docs` have run on
`c3start` (so one tool call is pending and `is_complete` is false). -/
def c3mid : AgentState := (adminSearchRun "t1" (analyzeQueryRun c3start).1).1

/-- A runtime state whose context holds a non-empty original query. -/
def queryAgentState : AgentState :=
  ⟨[], [("original_query", Json.str "setup")], [], false⟩

/-- A node behaviour that always finishes, leaving state unchanged. -/
def finishExec : String → AgentState → AgentState × Signal :=
  fun _ s => (s, Signal.finish)

theorem addToolResults_spec (reg : ToolRegistry) (now : Nat) :
    ∀ (calls : List PendingToolCall) (i : Nat) (st : AgentState),
      (addToolResults reg now i calls st).messages
          = st.messages ++ toolResultMessages reg now i calls ∧
      (addToolResults reg now i calls st).tool_calls = st.tool_calls ∧
      (addToolResults reg now i calls st).is_complete = st.is_complete ∧
      (addToolResults reg now i calls st).context = st.context := by
  intro calls
  induction calls with
  | nil => intro i st; simp [addToolResults, toolResultMessages]
  | cons c rest ih =>
    intro i st
    have h := ih (i + 1) (st.add_tool_result now i c.id (registryExecute reg c))
    simp only [addToolResults, toolResultMessages]
    refine ⟨?_, ?_, ?_, ?_⟩
    · rw [h.1]; simp [AgentState.add_tool_result]
    · rw [h.2.1]; rfl
    · rw [h.2.2.1]; rfl
    · rw [h.2.2.2]; rfl

theorem toolResultMessages_length (reg : ToolRegistry) (now : Nat) :
    ∀ (calls : List PendingToolCall) (i : Nat),
      (toolResultMessages reg now i calls).length = calls.length := by
  intro calls
  induction calls with
  | nil => intro i; rfl
  | cons c rest ih => intro i; simp [toolResultMessages, ih (i + 1)]

theorem toolResultMessages_ids (reg : ToolRegistry) (now : Nat) :
    ∀ (calls : List PendingToolCall) (i : Nat),
      (toolResultMessages reg now i calls).map Message.tool_call_id
        = calls.map (fun c => some c.id) := by
  intro calls
  induction calls with
  | nil => intro i; rfl
  | cons c rest ih =>
    intro i; simp [toolResultMessages, Message.tool_result, ih (i + 1)]

theorem toolResultMessages_roles (reg : ToolRegistry) (now : Nat) :
    ∀ (calls : List PendingToolCall) (i : Nat),
      (toolResultMessages reg now i calls).all
        (fun m => m.role == MessageRole.tool) = true := by
  intro calls
  induction calls with
  | nil => intro i; rfl
  | cons c rest ih =>
    intro i; simp [toolResultMessages, Message.tool_result, ih (i + 1)]

/-- C6: mark-complete is idempotent — marking a state complete twice
yields exactly the state obtained by marking it once at the second
call\x27s clock; `is_complete` stays true, messages are not duplicated,
and the second call still refreshes `updated_at`. -/
theorem c6_mark_complete_idempotent (t1 t2 : Nat) (s : WxorcaState) :
    (s.mark_complete t1).mark_complete t2 = s.mark_complete t2 ∧
    ((s.mark_complete t1).mark_complete t2).is_complete = true ∧
    ((s.mark_complete t1).mark_complete t2).messages = s.messages ∧
    ((s.mark_complete t1).mark_complete t2).updated_at = t2 :=
  ⟨rfl, rfl, rfl, rfl⟩

/-- C7: every mutating operation on `WxorcaState` — appending a user,
assistant, or tool message, adding a pending tool call, clearing
pending tool calls, marking complete, incrementing the iteration
counter, setting a context metadata entry — sets `updated_at` to the
mutation\x27s clock value `now`, and each appended message carries the
freshly drawn id and the timestamp `now`. -/
theorem c7_mutations_refresh_updated_at (now msgId : Nat)
    (c k tid nm res : String) (v args : Json) (s : WxorcaState) :
    (s.add_user_message now msgId c).updated_at = now ∧
    (s.add_user_message now msgId c).messages
      = s.messages ++ [⟨msgId, MessageRole.user, c, now, none, none⟩] ∧
    (s.add_assistant_message now msgId c).updated_at = now ∧
    (s.add_assistant_message now msgId c).messages
      = s.messages ++ [⟨msgId, MessageRole.assistant, c, now, none, none⟩] ∧
    (s.add_tool_result now msgId tid res).updated_at = now ∧
    (s.add_tool_result now msgId tid res).messages
      = s.messages ++ [⟨msgId, MessageRole.tool, res, now, some tid, none⟩] ∧
    (s.add_tool_call now tid nm args).updated_at = now ∧
    (s.clear_tool_calls now).updated_at = now ∧
    (s.mark_complete now).updated_at = now ∧
    (s.increment_iteration now).updated_at = now ∧
    (s.set_metadata now k v).updated_at = now :=
  ⟨rfl, rfl, rfl, rfl, rfl, rfl, rfl, rfl, rfl, rfl, rfl⟩

/-- C8: no operation on `WxorcaState` after creation changes
`session_id` or `agent_type` — both are frame-preserved by every
mutating operation. -/
theorem c8_identity_immutable (now msgId : Nat)
    (c k tid nm res : String) (v args : Json) (s : WxorcaState) :
    (s.add_user_message now msgId c).session_id = s.session_id ∧
    (s.add_user_message now msgId c).agent_type = s.agent_type ∧
    (s.add_assistant_message now msgId c).session_id = s.session_id ∧
    (s.add_assistant_message now msgId c).agent_type = s.agent_type ∧
    (s.add_tool_result now msgId tid res).session_id = s.session_id ∧
    (s.add_tool_result now msgId tid res).agent_type = s.agent_type ∧
    (s.add_tool_call now tid nm args).session_id = s.session_id ∧
    (s.add_tool_call now tid nm args).agent_type = s.agent_type ∧
    (s.clear_tool_calls now).session_id = s.session_id ∧
    (s.clear_tool_calls now).agent_type = s.agent_type ∧
    (s.mark_complete now).session_id = s.session_id ∧
    (s.mark_complete now).agent_type = s.agent_type ∧
    (s.increment_iteration now).session_id = s.session_id ∧
    (s.increment_iteration now).agent_type = s.agent_type ∧
    (s.set_metadata now k v).session_id = s.session_id ∧
    (s.set_metadata now k v).agent_type = s.agent_type :=
  ⟨rfl, rfl, rfl, rfl, rfl, rfl, rfl, rfl, rfl, rfl, rfl, rfl, rfl, rfl, rfl, rfl⟩

/-- C10: for every config type and config object, the returned
`ValidationResult` has `valid = true` exactly when its error list is
empty; warnings and suggestions never influence the flag. -/
theorem c10_valid_iff_no_errors (ct : ConfigType) (config : Json) :
    (validateConfigResult ct config).valid
      = (validateConfigResult ct config).errors.isEmpty ∧
    ((validateConfigResult ct config).valid = true
      ↔ (validateConfigResult ct config).errors = []) := by
  have h : (validateConfigResult ct config).valid
      = (validateConfigResult ct config).errors.isEmpty := by
    cases ct <;> rfl
  refine ⟨h, ?_⟩
  rw [h]
  exact ⟨fun hh => List.isEmpty_iff.mp hh, fun hh => by simp [hh]⟩

/-- C1: the conditional router attached to the respond node of the
admin-setup graph is `route_by_tools`; it returns the tool-execution
node name `execute_tools` exactly when the pending tool-call queue is
non-empty and the `END` sentinel exactly when it is empty, the two
results are distinct, the tool-execution node routes back to `respond`,
and consequently a `Finish` from `respond` continues into
`execute_tools` when calls are pending and terminates the run when
none are. -/
theorem c1_route_by_tools (s : AgentState) :
    adminGraph.conds = [("respond", route_by_tools)] ∧
    edgeOf adminGraph "execute_tools" = some "respond" ∧
    route_by_tools s
      = (if s.tool_calls.isEmpty then endSentinel else "execute_tools") ∧
    endSentinel ≠ "execute_tools" ∧
    (∀ (exec : String → AgentState → AgentState × Signal) (n : Nat)
       (t t' : AgentState),
      exec "respond" t = (t', Signal.finish) →
      run adminGraph exec (n + 1) "respond" t
        = (if t'.tool_calls.isEmpty then (RunResult.finished t', 1)
           else ((run adminGraph exec n "execute_tools" t').1,
                 (run adminGraph exec n "execute_tools" t').2 + 1))) := by
  refine ⟨rfl, rfl, ?_, by decide, ?_⟩
  · unfold route_by_tools AgentState.has_pending_tool_calls
    cases s.tool_calls <;> simp
  · intro exec n t t' hx
    simp only [run, hx]
    have hc : condOf adminGraph "respond" = some route_by_tools := rfl
    rw [hc]
    dsimp only
    unfold route_by_tools AgentState.has_pending_tool_calls
    cases h : t'.tool_calls with
    | nil => simp [h, endSentinel]
    | cons a l => simp [h, endSentinel]

/-- Witness for C1: with a respond node that immediately finishes on
the empty state (no pending calls), the run from `respond` terminates
as `Finished` after that single node execution. -/
theorem c1_witness :
    finishExec "respond" emptyAgentState = (emptyAgentState, Signal.finish) ∧
    run adminGraph finishExec 3 "respond" emptyAgentState
      = (RunResult.finished emptyAgentState, 1) := by
  have h := (c1_route_by_tools emptyAgentState).2.2.2.2 finishExec 2
    emptyAgentState emptyAgentState rfl
  refine ⟨rfl, ?_⟩
  rw [h]
  rfl

/-- C2: running the tool-execution node empties the pending queue and
appends, after the pre-existing messages, exactly one tool-result
message per call that was pending beforehand — each a tool-role message
tagged with the id of its originating call — before it signals
continuation back into the graph. -/
theorem c2_execute_tools_drains (reg : ToolRegistry) (now idBase : Nat)
    (s : AgentState) :
    (executeToolsRun reg now idBase s).1.tool_calls = [] ∧
    (executeToolsRun reg now idBase s).1.messages
      = s.messages ++ toolResultMessages reg now idBase s.tool_calls ∧
    (toolResultMessages reg now idBase s.tool_calls).length
      = s.tool_calls.length ∧
    (toolResultMessages reg now idBase s.tool_calls).map Message.tool_call_id
      = s.tool_calls.map (fun c => some c.id) ∧
    (toolResultMessages reg now idBase s.tool_calls).all
      (fun m => m.role == MessageRole.tool) = true ∧
    (executeToolsRun reg now idBase s).2 = Signal.cont := by
  have h := addToolResults_spec reg now s.tool_calls idBase s
  refine ⟨rfl, ?_, toolResultMessages_length reg now s.tool_calls idBase,
    toolResultMessages_ids reg now s.tool_calls idBase,
    toolResultMessages_roles reg now s.tool_calls idBase, rfl⟩
  show (addToolResults reg now idBase s.tool_calls s).clear_tool_calls.messages
      = s.messages ++ toolResultMessages reg now idBase s.tool_calls
  rw [show ∀ t : AgentState, t.clear_tool_calls.messages = t.messages from fun _ => rfl]
  exact h.1

/-- Counterexample for C3: on the first pass of the admin graph over a
fresh user query, the respond node is entered with one tool call still
pending and `is_complete = false`, and its execution sets
`is_complete = true` while the pending queue is still non-empty — so
`is_complete` is not set by "a response node finishing with no further
tool calls needed". -/
theorem c3_counterexample :
    c3mid.is_complete = false ∧
    c3mid.has_pending_tool_calls = true ∧
    (adminRespondRun 1 1 "" c3mid).1.is_complete = true ∧
    (adminRespondRun 1 1 "" c3mid).1.has_pending_tool_calls = true ∧
    (adminRespondRun 1 1 "" c3mid).2 = Signal.finish :=
  ⟨rfl, rfl, rfl, rfl, rfl⟩

/-- C3 (amended): `is_complete` is one-way — no state operation and no
node ever resets it to false — and the respond node sets it to true on
every execution, regardless of whether tool calls are still pending
(idempotently, so only the first such execution changes its value). -/
theorem c3_amended (now msgId i : Nat)
    (c k tid nm res cid prompt : String) (v args : Json)
    (s : WxorcaState) (t : AgentState) (reg : ToolRegistry) :
    (s.add_user_message now msgId c).is_complete = s.is_complete ∧
    (s.add_assistant_message now msgId c).is_complete = s.is_complete ∧
    (s.add_tool_result now msgId tid res).is_complete = s.is_complete ∧
    (s.add_tool_call now tid nm args).is_complete = s.is_complete ∧
    (s.clear_tool_calls now).is_complete = s.is_complete ∧
    (s.increment_iteration now).is_complete = s.is_complete ∧
    (s.set_metadata now k v).is_complete = s.is_complete ∧
    (s.mark_complete now).is_complete = true ∧
    (analyzeQueryRun t).1.is_complete = t.is_complete ∧
    (adminSearchRun cid t).1.is_complete = t.is_complete ∧
    (usageSearchRun cid t).1.is_complete = t.is_complete ∧
    (exampleFetchRun cid t).1.is_complete = t.is_complete ∧
    (executeToolsRun reg now i t).1.is_complete = t.is_complete ∧
    (adminRespondRun now msgId prompt t).1.is_complete = true := by
  refine ⟨rfl, rfl, rfl, rfl, rfl, rfl, rfl, rfl, ?_, ?_, ?_, ?_, ?_, rfl⟩
  · unfold analyzeQueryRun
    cases t.last_user_message <;> rfl
  · by_cases hq : (t.getStr "original_query").getD "" = ""
    · simp [adminSearchRun, hq]
    · simp [adminSearchRun, hq]
  · by_cases hq : (t.getStr "original_query").getD "" = ""
    · simp [usageSearchRun, hq]
    · simp [usageSearchRun, hq]
  · by_cases hq : (t.getStr "original_query").getD "" = ""
    · simp [exampleFetchRun, hq]
    · simp [exampleFetchRun, hq]
  · have h := addToolResults_spec reg now t.tool_calls i t
    show (addToolResults reg now i t.tool_calls t).clear_tool_calls.is_complete
        = t.is_complete
    rw [show ∀ u : AgentState, u.clear_tool_calls.is_complete = u.is_complete
      from fun _ => rfl]
    exact h.2.2.1

/-- C4: for every graph, node behaviour, ceiling and initial state, the
runner performs at most `max_iterations` node executions; and on the
pathological always-self-routing graph it exhausts the ceiling exactly
and halts in `Failed` with the exhaustion error instead of continuing. -/
theorem c4_run_within_ceiling :
    (∀ (σ : Type) (g : Graph σ) (exec : String → σ → σ × Signal) (n : Nat)
       (node : String) (st : σ), (run g exec n node st).2 ≤ n) ∧
    (∀ (n : Nat) (st : Nat),
       run spinGraph spinExec n "spin" st
         = (RunResult.failed RunError.exhausted st, n)) := by
  constructor
  · intro σ g exec n
    induction n with
    | zero => intro node st; simp [run]
    | succ n ih =>
      intro node st
      rcases hx : exec node st with ⟨s', sig⟩
      cases sig with
      | err m => simp [run, hx]
      | finish =>
        rcases hc : condOf g node with _ | f
        · simp [run, hx, hc]
        · cases hb : (f s' == endSentinel) with
          | true => simp [run, hx, hc, hb]
          | false =>
            have hr := ih (f s') s'
            simp [run, hx, hc, hb]
            omega
      | cont =>
        rcases hc : condOf g node with _ | f
        · rcases he : edgeOf g node with _ | d
          · simp [run, hx, hc, he]
          · have hr := ih d s'
            simp [run, hx, hc, he]
            omega
        · cases hb : (f s' == endSentinel) with
          | true => simp [run, hx, hc, hb]
          | false =>
            have hr := ih (f s') s'
            simp [run, hx, hc, hb]
            omega
  · intro n
    induction n with
    | zero => intro st; rfl
    | succ n ih =>
      intro st
      have hstep : run spinGraph spinExec (n + 1) "spin" st
          = ((run spinGraph spinExec n "spin" st).1,
             (run spinGraph spinExec n "spin" st).2 + 1) := by
        simp [run, spinExec, condOf, spinGraph, endSentinel]
      rw [hstep, ih st]

/-- C5: tool dispatch never crashes the run — a call whose name is not
registered in the wxorca registry yields a textual error result (an
explicit string, dispatch is total), and each of the three tools turns
arguments that are malformed against its schema (missing `query`,
`topic`, or `config_type`) into an explicit error result rather than a
panic. -/
theorem c5_dispatch_never_crashes
    (retrieve : SearchDocsInput → String) (ser : ValidationResult → String)
    (mock : FetchExamplesInput → String) (call : PendingToolCall)
    (h : lookupTool (create_tool_registry retrieve ser mock) call.name = none) :
    registryExecute (create_tool_registry retrieve ser mock) call
      = "Error: tool \x27" ++ call.name ++ "\x27 not found" ∧
    searchDocsExec retrieve (Json.obj [])
      = Except.error "Invalid arguments: missing field query" ∧
    fetchExamplesExec mock (Json.obj [])
      = Except.error "Invalid arguments: missing field topic" ∧
    validateConfigExec ser (Json.obj [("config", Json.obj [])])
      = Except.error "Invalid arguments: missing field config_type" := by
  refine ⟨?_, rfl, rfl, rfl⟩
  simp [registryExecute, h]

/-- Witness for C5: the concrete call `does_not_exist` is absent from
the registry, and dispatching it yields the textual error result. -/
theorem c5_witness :
    lookupTool (create_tool_registry (fun _ => "") (fun _ => "") (fun _ => ""))
      "does_not_exist" = none ∧
    registryExecute (create_tool_registry (fun _ => "") (fun _ => "") (fun _ => ""))
      ⟨"c1", "does_not_exist", Json.obj []⟩
      = "Error: tool \x27does_not_exist\x27 not found" := by
  refine ⟨rfl, ?_⟩
  exact (c5_dispatch_never_crashes (fun _ => "") (fun _ => "") (fun _ => "")
    ⟨"c1", "does_not_exist", Json.obj []⟩ rfl).1

/-- C9: each documentation-search and example-fetch node appends
exactly one pending tool call (`search_wxo_docs` or
`fetch_wxo_examples`) when the context key `original_query` holds a
non-empty string, and leaves the state untouched (continuing) when the
decoded query is empty; consequently, starting with no user message the
analyze node writes nothing and the search node reaches the respond
node with no pending calls. -/
theorem c9_search_nodes (cid : String) (t : AgentState) :
    ((t.getStr "original_query").getD "" = "" →
      adminSearchRun cid t = (t, Signal.cont) ∧
      usageSearchRun cid t = (t, Signal.cont) ∧
      exampleFetchRun cid t = (t, Signal.cont)) ∧
    (∀ q : String, t.getStr "original_query" = some q → ¬q = "" →
      (adminSearchRun cid t).1.tool_calls
        = t.tool_calls ++ [⟨cid, "search_wxo_docs",
            Json.obj [("query", Json.str q), ("category", Json.str "admin"),
                      ("limit", Json.num 5)]⟩] ∧
      (usageSearchRun cid t).1.tool_calls
        = t.tool_calls ++ [⟨cid, "search_wxo_docs",
            Json.obj [("query", Json.str q), ("category", Json.str "user"),
                      ("limit", Json.num 5)]⟩] ∧
      (exampleFetchRun cid t).1.tool_calls
        = t.tool_calls ++ [⟨cid, "fetch_wxo_examples",
            Json.obj [("topic", Json.str q), ("limit", Json.num 3)]⟩]) ∧
    (t.last_user_message = none → t.get_context "original_query" = none →
      t.tool_calls = [] →
      (analyzeQueryRun t).1 = t ∧
      (adminSearchRun cid (analyzeQueryRun t).1).1.tool_calls = []) := by
  refine ⟨?_, ?_, ?_⟩
  · intro hq
    exact ⟨by simp [adminSearchRun, hq], by simp [usageSearchRun, hq],
      by simp [exampleFetchRun, hq]⟩
  · intro q hq hne
    have hgd : (t.getStr "original_query").getD "" = q := by rw [hq]; rfl
    exact ⟨by simp [adminSearchRun, hgd, hne], by simp [usageSearchRun, hgd, hne],
      by simp [exampleFetchRun, hgd, hne]⟩
  · intro hm hc htc
    have ha : (analyzeQueryRun t).1 = t := by simp [analyzeQueryRun, hm]
    refine ⟨ha, ?_⟩
    rw [ha]
    have hq : (t.getStr "original_query").getD "" = "" := by
      unfold AgentState.getStr
      rw [hc]
      rfl
    simp [adminSearchRun, hq, htc]

/-- Witness for C9: on the empty state (no user message, no context
key) the search node appends nothing and the respond node is reached
with no pending calls; on a state whose context holds the non-empty
query "setup" the search node appends exactly the one
`search_wxo_docs` call. -/
theorem c9_witness :
    adminSearchRun "c0" emptyAgentState = (emptyAgentState, Signal.cont) ∧
    (adminSearchRun "c0" (analyzeQueryRun emptyAgentState).1).1.tool_calls = [] ∧
    (adminSearchRun "c9" queryAgentState).1.tool_calls
      = [⟨"c9", "search_wxo_docs",
          Json.obj [("query", Json.str "setup"), ("category", Json.str "admin"),
                    ("limit", Json.num 5)]⟩] := by
  have h1 := (c9_search_nodes "c0" emptyAgentState).1 rfl
  have h2 := (c9_search_nodes "c0" emptyAgentState).2.2 rfl rfl rfl
  have h3 := (c9_search_nodes "c9" queryAgentState).2.1 "setup" rfl (by decide)
  refine ⟨h1.1, h2.2, ?_⟩
  rw [h3.1]
  rfl

end Wxorca
